import Mathlib

set_option maxHeartbeats 1000000

/-!
Verification development for the s3gateway backend (Python).

Python strings are modelled as lists of Unicode code points (`PyStr`);
Python byte strings as lists of naturals below 256.  Each definition is a
shallow embedding of the function of the same name in
`backend/app/{proxy_router,hash_utils,crypto_utils,db,replication,proxy_meta}.py`.
-/

/-- A Python `str`: a sequence of Unicode code points. -/
abbrev PyStr := List Char

/-- Coerce a Lean string literal to the `PyStr` model. -/
def pstr (s : String) : PyStr := s.data

/-- Python `s.split(sep)` for a single-character separator:
`"a,,b".split(",") == ["a","","b"]`, `"".split(",") == [""]`. -/
def splitChar (sep : Char) : PyStr → List PyStr
  | [] => [[]]
  | c :: rest =>
    match splitChar sep rest with
    | [] => if c = sep then [[], []] else [[c]]
    | h :: t => if c = sep then [] :: h :: t else (c :: h) :: t

/-- Python `s.split(sep, 1)` restricted to the part after the first separator:
returns `none` when the separator is absent (where Python tuple unpacking of
the two pieces would raise `ValueError`). -/
def splitOnceChar (sep : Char) : PyStr → Option (PyStr × PyStr)
  | [] => none
  | c :: rest =>
    if c = sep then some ([], rest)
    else
      match splitOnceChar sep rest with
      | none => none
      | some (a, b) => some (c :: a, b)

/-- Python `s.strip()` (whitespace modelled by `Char.isWhitespace`). -/
def pyStrip (s : PyStr) : PyStr :=
  ((s.dropWhile Char.isWhitespace).reverse.dropWhile Char.isWhitespace).reverse

/-- Python dict assignment `d[k] = v`: overwrite in place, else append. -/
def dictSet (d : List (PyStr × PyStr)) (k v : PyStr) : List (PyStr × PyStr) :=
  if d.any (fun kv => kv.1 == k) then
    d.map (fun kv => if kv.1 == k then (k, v) else kv)
  else d ++ [(k, v)]

/-- Python `d.get(k)`. -/
def dictGet (d : List (PyStr × PyStr)) (k : PyStr) : Option PyStr :=
  (d.find? (fun kv => kv.1 == k)).map (fun kv => kv.2)

/-- Errors raised by the Python code: FastAPI `HTTPException(status, detail)`
or a bare `ValueError(msg)` (which FastAPI surfaces as HTTP 500). -/
inductive PyError where
  | httpException (status : Nat) (detail : String)
  | valueError (msg : String)
deriving DecidableEq, Repr

/-- `proxy_router.SigV4Components`. -/
structure SigV4Components where
  access_key : PyStr
  region : PyStr
  signed_headers : PyStr
  signature : PyStr
deriving DecidableEq, Repr

/-- `proxy_router.parse_authorization_header`, line for line:
reject when the header is empty or does not start with `AWS4-HMAC-SHA256`;
split off the scheme word; collect `k=v` parts into a dict; require
`Credential`, `SignedHeaders`, `Signature` to be present and non-empty;
require at least four `/`-separated Credential fields.  The Python
`_, remainder = header.split(" ", 1)` raises `ValueError` when there is no
space; that is the `valueError` branch. -/
def parse_authorization_header (header : PyStr) : Except PyError SigV4Components :=
  if header.isEmpty || !((pstr "AWS4-HMAC-SHA256").isPrefixOf header) then
    .error (.httpException 401 "Missing or invalid Authorization header")
  else
    match splitOnceChar ' ' header with
    | none => .error (.valueError "not enough values to unpack")
    | some (_, remainder) =>
      let params := (splitChar ',' remainder).foldl (fun d part =>
        if part.contains '=' then
          match splitOnceChar '=' (pyStrip part) with
          | some (k, v) => dictSet d k v
          | none => d
        else d) []
      let credential := (dictGet params (pstr "Credential")).getD []
      let signed_headers := (dictGet params (pstr "SignedHeaders")).getD []
      let signature := (dictGet params (pstr "Signature")).getD []
      if credential.isEmpty || signed_headers.isEmpty || signature.isEmpty then
        .error (.httpException 401 "Invalid SigV4 header")
      else
        let cred_parts := splitChar '/' credential
        if cred_parts.length < 4 then
          .error (.httpException 401 "Invalid Credential scope")
        else
          .ok { access_key := cred_parts.getD 0 [],
                region := cred_parts.getD 2 [],
                signed_headers := signed_headers,
                signature := signature }

/-! ## hash_utils.py -/

/-- `hash_utils.BucketHashInput`. -/
structure BucketHashInput where
  customer_id : PyStr
  region_id : PyStr
  logical_name : PyStr
  backend_id : PyStr
  collision_counter : Nat
deriving DecidableEq, Repr

/-- `hash_utils.DEFAULT_PREFIX`. -/
def DEFAULT_PREFIX : PyStr := pstr "s3gw"

/-- `hash_utils.DEFAULT_HASH_LENGTH`. -/
def DEFAULT_HASH_LENGTH : Nat := 16

/-- Python `s.lower()` (modelled on the basic-latin range, which is all the
code relies on). -/
def pyLower (s : PyStr) : PyStr := s.map Char.toLower

/-- Python `s.replace("_", "-")`. -/
def pyReplaceUnderscore (s : PyStr) : PyStr :=
  s.map (fun c => if c = '_' then '-' else c)

/-- The backend suffix of `generate_backend_bucket_name`:
`bucket_input.backend_id.lower().replace("_", "-")[:8] or "backend"`. -/
def backendSuffix (backend_id : PyStr) : PyStr :=
  let s := (pyReplaceUnderscore (pyLower backend_id)).take 8
  if s.isEmpty then pstr "backend" else s

/-- The colon-joined hash input of `generate_backend_bucket_name` (lines
49-53). -/
def hash_input_string (b : BucketHashInput) : PyStr :=
  b.customer_id ++ pstr ":" ++ b.region_id ++ pstr ":" ++
    b.logical_name ++ pstr ":" ++ b.backend_id ++ pstr ":" ++
    pstr (toString b.collision_counter)

/-- `hash_utils.generate_backend_bucket_name`, parametrised by the SHA-256
hex-digest function (external `hashlib`); `sha256hex s` models
`hashlib.sha256(s.encode("utf-8")).hexdigest()`, which always yields 64
lowercase hex characters (`IsSha256Hex`). -/
def generate_backend_bucket_name (sha256hex : PyStr → PyStr)
    (bucket_input : BucketHashInput) (pfx : PyStr) (hash_length : Nat) : PyStr :=
  let digest := sha256hex (hash_input_string bucket_input)
  let hash_part := digest.take hash_length
  let backend_suffix := backendSuffix bucket_input.backend_id
  let bucket_name := pyLower (pfx ++ pstr "-" ++ hash_part ++ pstr "-" ++ backend_suffix)
  if bucket_name.length > 63 then
    pfx ++ pstr "-" ++ digest.take 20 ++ pstr "-" ++ backend_suffix.take 8
  else bucket_name

/-- Shape of `hashlib.sha256(...).hexdigest()`: 64 characters, each a
lowercase hex digit (`0-9` or `a-f`, i.e. code points 48-57 or 97-102). -/
def IsSha256Hex (f : PyStr → PyStr) : Prop :=
  ∀ s, (f s).length = 64 ∧ ∀ c ∈ f s, (48 ≤ c.toNat ∧ c.toNat ≤ 57) ∨ (97 ≤ c.toNat ∧ c.toNat ≤ 102)

/-- A character allowed in an S3 bucket name: `a-z` (97-122), `0-9` (48-57)
or `-` (45). -/
abbrev isBucketNameChar (c : Char) : Prop :=
  (97 ≤ c.toNat ∧ c.toNat ≤ 122) ∨ (48 ≤ c.toNat ∧ c.toNat ≤ 57) ∨ c.toNat = 45

/-- An ASCII alphanumeric character: `0-9`, `A-Z` or `a-z`. -/
abbrev isAsciiAlnum (c : Char) : Prop :=
  (48 ≤ c.toNat ∧ c.toNat ≤ 57) ∨ (65 ≤ c.toNat ∧ c.toNat ≤ 90) ∨ (97 ≤ c.toNat ∧ c.toNat ≤ 122)

theorem Char.toNat_toLower (c : Char) :
    c.toLower.toNat = if 65 ≤ c.toNat ∧ c.toNat ≤ 90 then c.toNat + 32 else c.toNat := by
  unfold Char.toLower
  by_cases h : 65 ≤ c.toNat ∧ c.toNat ≤ 90
  · rw [if_pos ⟨h.1, h.2⟩, if_pos h]
    have hv : (c.toNat + 32).isValidChar := Or.inl (by omega)
    rw [Char.ofNat, dif_pos hv]
    simp [Char.ofNatAux, Char.toNat, UInt32.toNat, BitVec.toNat_ofNatLt]
  · rw [if_neg (fun hc => h ⟨hc.1, hc.2⟩), if_neg h]

theorem Char.toLower_eq_self {c : Char} (h : ¬ (65 ≤ c.toNat ∧ c.toNat ≤ 90)) :
    c.toLower = c := by
  unfold Char.toLower
  exact if_neg (fun hc => h ⟨hc.1, hc.2⟩)

theorem Char.toLower_toLower (c : Char) : c.toLower.toLower = c.toLower := by
  apply Char.toLower_eq_self
  rw [Char.toNat_toLower]
  by_cases h : 65 ≤ c.toNat ∧ c.toNat ≤ 90
  · rw [if_pos h]; omega
  · rw [if_neg h]; exact h

theorem backendSuffix_lowerFixed (backend_id : PyStr) :
    ∀ c ∈ backendSuffix backend_id, c.toLower = c := by
  intro c hc
  unfold backendSuffix at hc
  by_cases he : ((pyReplaceUnderscore (pyLower backend_id)).take 8).isEmpty
  · rw [if_pos he] at hc
    have hc' : c ∈ ['b', 'a', 'c', 'k', 'e', 'n', 'd'] := hc
    fin_cases hc' <;> decide
  · rw [if_neg he] at hc
    have hc' := List.take_subset 8 _ hc
    unfold pyReplaceUnderscore pyLower at hc'
    rw [List.map_map] at hc'
    obtain ⟨d, _, hd⟩ := List.mem_map.mp hc'
    simp only [Function.comp] at hd
    by_cases hu : d.toLower = '_'
    · rw [hu, if_pos rfl] at hd; rw [← hd]; decide
    · rw [if_neg hu] at hd; rw [← hd]; exact Char.toLower_toLower d

theorem backendSuffix_ne_nil (backend_id : PyStr) : backendSuffix backend_id ≠ [] := by
  unfold backendSuffix
  by_cases he : ((pyReplaceUnderscore (pyLower backend_id)).take 8).isEmpty
  · rw [if_pos he]; decide
  · rw [if_neg he]
    simpa [List.isEmpty_iff] using he

theorem backendSuffix_length_le (backend_id : PyStr) : (backendSuffix backend_id).length ≤ 8 := by
  unfold backendSuffix
  by_cases he : ((pyReplaceUnderscore (pyLower backend_id)).take 8).isEmpty
  · rw [if_pos he]; decide
  · rw [if_neg he]
    calc ((pyReplaceUnderscore (pyLower backend_id)).take 8).length ≤ 8 :=
      List.length_take_le 8 _

theorem pyLower_eq_self {s : PyStr} (h : ∀ c ∈ s, c.toLower = c) : pyLower s = s := by
  unfold pyLower
  rw [List.map_congr_left h]
  exact List.map_id' s

/-- With the default prefix and hash length, the over-63 fallback branch is
never taken and the result is the step-5 assembly verbatim. -/
theorem generate_default_eq (f : PyStr → PyStr) (hf : IsSha256Hex f) (b : BucketHashInput) :
    generate_backend_bucket_name f b DEFAULT_PREFIX DEFAULT_HASH_LENGTH =
      pstr "s3gw-" ++ (f (hash_input_string b)).take 16 ++ pstr "-" ++
        backendSuffix b.backend_id := by
  unfold generate_backend_bucket_name
  have hfix : pyLower (DEFAULT_PREFIX ++ pstr "-" ++ (f (hash_input_string b)).take DEFAULT_HASH_LENGTH
      ++ pstr "-" ++ backendSuffix b.backend_id) =
      DEFAULT_PREFIX ++ pstr "-" ++ (f (hash_input_string b)).take DEFAULT_HASH_LENGTH
      ++ pstr "-" ++ backendSuffix b.backend_id := by
    apply pyLower_eq_self
    intro c hc
    simp only [List.append_assoc, List.mem_append] at hc
    rcases hc with hc | hc | hc | hc | hc
    · have hc' : c ∈ ['s', '3', 'g', 'w'] := hc
      fin_cases hc' <;> decide
    · have hc' : c ∈ ['-'] := hc
      fin_cases hc' <;> decide
    · have := ((hf (hash_input_string b)).2 c (List.take_subset _ _ hc))
      exact Char.toLower_eq_self (by omega)
    · have hc' : c ∈ ['-'] := hc
      fin_cases hc' <;> decide
    · exact backendSuffix_lowerFixed _ c hc
  simp only [List.append_assoc] at hfix ⊢
  rw [hfix]
  have hlen16 : ((f (hash_input_string b)).take DEFAULT_HASH_LENGTH).length = 16 := by
    rw [List.length_take, (hf (hash_input_string b)).1]
    decide
  have hsuf := backendSuffix_length_le b.backend_id
  have hp : (DEFAULT_PREFIX : PyStr).length = 4 := by decide
  have hd : (pstr "-").length = 1 := by decide
  rw [if_neg (by simp only [List.length_append, hlen16, hp, hd]; omega)]
  have hcat : (pstr "s3gw-" : PyStr) = DEFAULT_PREFIX ++ pstr "-" := by decide
  rw [hcat]
  simp [List.append_assoc, DEFAULT_HASH_LENGTH]

/-- A concrete digest function with the SHA-256 hex-output shape, used to
instantiate witnesses. -/
def constDigest : PyStr → PyStr := fun _ => List.replicate 64 'a'

theorem constDigest_valid : IsSha256Hex constDigest := by
  intro s
  refine ⟨by simp [constDigest], ?_⟩
  intro c hc
  have h : c = 'a' := by simpa [constDigest] using hc
  subst h
  decide

theorem backendSuffix_alnum (backend_id : PyStr)
    (hb : ∀ d ∈ backend_id, isAsciiAlnum d) :
    ∀ c ∈ backendSuffix backend_id,
      (48 ≤ c.toNat ∧ c.toNat ≤ 57) ∨ (97 ≤ c.toNat ∧ c.toNat ≤ 122) := by
  intro c hc
  unfold backendSuffix at hc
  by_cases he : ((pyReplaceUnderscore (pyLower backend_id)).take 8).isEmpty
  · rw [if_pos he] at hc
    have hc' : c ∈ ['b', 'a', 'c', 'k', 'e', 'n', 'd'] := hc
    fin_cases hc' <;> decide
  · rw [if_neg he] at hc
    have hc' := List.take_subset 8 _ hc
    unfold pyReplaceUnderscore pyLower at hc'
    rw [List.map_map] at hc'
    obtain ⟨d, hd_mem, hd⟩ := List.mem_map.mp hc'
    simp only [Function.comp] at hd
    have halnum := hb d hd_mem
    have hlow := Char.toNat_toLower d
    by_cases hu : d.toLower = '_'
    · exfalso
      have h95 : d.toLower.toNat = 95 := by rw [hu]; decide
      rw [hlow] at h95
      rcases halnum with h | h | h
      · rw [if_neg (by omega)] at h95; omega
      · rw [if_pos h] at h95; omega
      · rw [if_neg (by omega)] at h95; omega
    · rw [if_neg hu] at hd
      rw [← hd]
      by_cases hup : 65 ≤ d.toNat ∧ d.toNat ≤ 90
      · rw [if_pos hup] at hlow
        rw [hlow]
        right
        omega
      · rw [if_neg hup] at hlow
        rw [hlow]
        rcases halnum with h | h | h
        · left; omega
        · exact absurd h hup
        · right; omega

/-- C9: with the default prefix `s3gw` and hash length 16 the assembled name
has at most 30 characters, so the over-63-character fallback branch is
unreachable and the result is always `s3gw-` + the first 16 digest
characters + `-` + the backend suffix. -/
theorem C9_default_name_short (f : PyStr → PyStr) (hf : IsSha256Hex f) (b : BucketHashInput) :
    (generate_backend_bucket_name f b DEFAULT_PREFIX DEFAULT_HASH_LENGTH).length ≤ 30 ∧
    generate_backend_bucket_name f b DEFAULT_PREFIX DEFAULT_HASH_LENGTH =
      pstr "s3gw-" ++ (f (hash_input_string b)).take 16 ++ pstr "-" ++
        backendSuffix b.backend_id := by
  refine ⟨?_, generate_default_eq f hf b⟩
  rw [generate_default_eq f hf b]
  have h16 : ((f (hash_input_string b)).take 16).length = 16 := by
    rw [List.length_take, (hf (hash_input_string b)).1]
    decide
  have hsuf := backendSuffix_length_le b.backend_id
  have h5 : (pstr "s3gw-").length = 5 := by decide
  have h1 : (pstr "-").length = 1 := by decide
  simp only [List.length_append, h16, h5, h1]
  omega

/-- Witness for C9 at a concrete input and digest function. -/
theorem C9_default_name_short_witness :
    (generate_backend_bucket_name constDigest
        ⟨pstr "cust-123", pstr "eu-central", pstr "analytics", pstr "frontier", 0⟩
        DEFAULT_PREFIX DEFAULT_HASH_LENGTH).length ≤ 30 ∧
    generate_backend_bucket_name constDigest
        ⟨pstr "cust-123", pstr "eu-central", pstr "analytics", pstr "frontier", 0⟩
        DEFAULT_PREFIX DEFAULT_HASH_LENGTH =
      pstr "s3gw-" ++
        (constDigest (hash_input_string
          ⟨pstr "cust-123", pstr "eu-central", pstr "analytics", pstr "frontier", 0⟩)).take 16 ++
        pstr "-" ++ backendSuffix (pstr "frontier") :=
  C9_default_name_short constDigest constDigest_valid
    ⟨pstr "cust-123", pstr "eu-central", pstr "analytics", pstr "frontier", 0⟩

/-- C3 (amended): for every digest function of SHA-256 hex shape and every
input whose `backend_id` consists of ASCII alphanumeric characters, the
name returned with the default prefix and hash length has length in
`[3, 63]`, contains only `[a-z0-9-]`, and neither starts nor ends with a
hyphen. -/
theorem C3_bucket_name_grammar (f : PyStr → PyStr) (hf : IsSha256Hex f)
    (b : BucketHashInput) (hb : ∀ d ∈ b.backend_id, isAsciiAlnum d) :
    3 ≤ (generate_backend_bucket_name f b DEFAULT_PREFIX DEFAULT_HASH_LENGTH).length ∧
    (generate_backend_bucket_name f b DEFAULT_PREFIX DEFAULT_HASH_LENGTH).length ≤ 63 ∧
    (∀ c ∈ generate_backend_bucket_name f b DEFAULT_PREFIX DEFAULT_HASH_LENGTH,
      isBucketNameChar c) ∧
    (generate_backend_bucket_name f b DEFAULT_PREFIX DEFAULT_HASH_LENGTH).head? ≠ some '-' ∧
    (generate_backend_bucket_name f b DEFAULT_PREFIX DEFAULT_HASH_LENGTH).getLast? ≠ some '-' := by
  rw [generate_default_eq f hf b]
  have h16 : ((f (hash_input_string b)).take 16).length = 16 := by
    rw [List.length_take, (hf (hash_input_string b)).1]
    decide
  have hsufne := backendSuffix_ne_nil b.backend_id
  have hsufal := backendSuffix_alnum b.backend_id hb
  have h5 : (pstr "s3gw-").length = 5 := by decide
  have h1 : (pstr "-").length = 1 := by decide
  refine ⟨?_, ?_, ?_, ?_, ?_⟩
  · simp only [List.length_append, h16, h5, h1]
    omega
  · have hsuf := backendSuffix_length_le b.backend_id
    simp only [List.length_append, h16, h5, h1]
    omega
  · intro c hc
    simp only [List.append_assoc, List.mem_append] at hc
    rcases hc with hc | hc | hc | hc
    · have hc' : c ∈ ['s', '3', 'g', 'w', '-'] := hc
      fin_cases hc' <;> decide
    · have := (hf (hash_input_string b)).2 c (List.take_subset _ _ hc)
      unfold isBucketNameChar
      omega
    · have hc' : c ∈ ['-'] := hc
      fin_cases hc' <;> decide
    · have := hsufal c hc
      unfold isBucketNameChar
      omega
  · have hh : (pstr "s3gw-").head? = some 's' := rfl
    simp only [List.append_assoc, List.head?_append, hh, Option.or_some]
    decide
  · simp only [List.append_assoc, List.getLast?_append]
    rcases hlast : (backendSuffix b.backend_id).getLast? with _ | c
    · exact absurd (List.getLast?_eq_none_iff.mp hlast) hsufne
    · have hmem := List.mem_of_getLast?_eq_some hlast
      have := hsufal c hmem
      simp only [hlast, Option.or_some]
      intro hcontra
      have : c.toNat = 45 := by
        have hc45 : c = '-' := by injection hcontra
        rw [hc45]
        decide
      omega

/-- Witness for C3 (amended) at a concrete input and digest function. -/
theorem C3_bucket_name_grammar_witness :
    3 ≤ (generate_backend_bucket_name constDigest
        ⟨pstr "t1", pstr "fi", pstr "docs", pstr "ceph", 0⟩
        DEFAULT_PREFIX DEFAULT_HASH_LENGTH).length ∧
    (generate_backend_bucket_name constDigest
        ⟨pstr "t1", pstr "fi", pstr "docs", pstr "ceph", 0⟩
        DEFAULT_PREFIX DEFAULT_HASH_LENGTH).length ≤ 63 ∧
    (∀ c ∈ generate_backend_bucket_name constDigest
        ⟨pstr "t1", pstr "fi", pstr "docs", pstr "ceph", 0⟩
        DEFAULT_PREFIX DEFAULT_HASH_LENGTH, isBucketNameChar c) ∧
    (generate_backend_bucket_name constDigest
        ⟨pstr "t1", pstr "fi", pstr "docs", pstr "ceph", 0⟩
        DEFAULT_PREFIX DEFAULT_HASH_LENGTH).head? ≠ some '-' ∧
    (generate_backend_bucket_name constDigest
        ⟨pstr "t1", pstr "fi", pstr "docs", pstr "ceph", 0⟩
        DEFAULT_PREFIX DEFAULT_HASH_LENGTH).getLast? ≠ some '-' :=
  C3_bucket_name_grammar constDigest constDigest_valid
    ⟨pstr "t1", pstr "fi", pstr "docs", pstr "ceph", 0⟩ (by decide)

/-- C3 counterexample: with backend id `"!"` the returned name
`s3gw-aaaaaaaaaaaaaaaa-!` (under a digest of valid SHA-256 hex shape)
contains `!`, which is outside `[a-z0-9-]` — so the unrestricted claim is
false. -/
theorem C3_counterexample :
    IsSha256Hex constDigest ∧
    generate_backend_bucket_name constDigest
        ⟨pstr "cust", pstr "eu-central", pstr "logs", pstr "!", 0⟩
        DEFAULT_PREFIX DEFAULT_HASH_LENGTH = pstr "s3gw-aaaaaaaaaaaaaaaa-!" ∧
    ¬ (∀ c ∈ pstr "s3gw-aaaaaaaaaaaaaaaa-!", isBucketNameChar c) := by
  refine ⟨constDigest_valid, by rfl, ?_⟩
  intro h
  exact (by decide : ¬ isBucketNameChar '!') (h '!' (by decide))

/-! ## crypto_utils.py

`encrypt_secret` / `decrypt_secret` are modelled at the byte level: the
plaintext is the UTF-8 byte string `secret.encode("utf-8")` (Python's
UTF-8 decode of its own encode is the identity), the key is
`hashlib.sha256(passphrase.encode()).digest()`. -/

/-- A Python `bytes` value: naturals below 256. -/
abbrev PyBytes := List Nat

/-- The alphabet of `base64.urlsafe_b64encode`. -/
def b64Alphabet : PyStr :=
  pstr "ABCDEFGHIJKLMNOPQRSTUVWXYZabcdefghijklmnopqrstuvwxyz0123456789-_"

/-- Encode one 6-bit group as a base64url character. -/
def enc6 (n : Nat) : Char := b64Alphabet.getD n 'A'

/-- Decode one base64url character to its 6-bit group. -/
def dec6 (c : Char) : Option Nat := b64Alphabet.indexOf? c

/-- `base64.urlsafe_b64encode`, bytes to characters, with `=` padding. -/
def b64encode : PyBytes → PyStr
  | b1 :: b2 :: b3 :: rest =>
    enc6 (b1 / 4) :: enc6 ((b1 % 4) * 16 + b2 / 16) :: enc6 ((b2 % 16) * 4 + b3 / 64)
      :: enc6 (b3 % 64) :: b64encode rest
  | [b1, b2] => [enc6 (b1 / 4), enc6 ((b1 % 4) * 16 + b2 / 16), enc6 ((b2 % 16) * 4), '=']
  | [b1] => [enc6 (b1 / 4), enc6 ((b1 % 4) * 16), '=', '=']
  | [] => []

/-- One 4-character group of `base64.urlsafe_b64decode`. -/
def b64decodeChunk (c1 c2 c3 c4 : Char) : Option PyBytes :=
  match dec6 c1, dec6 c2 with
  | some s1, some s2 =>
    if c3 = '=' then
      if c4 = '=' then some [s1 * 4 + s2 / 16] else none
    else
      match dec6 c3 with
      | some s3 =>
        if c4 = '=' then some [s1 * 4 + s2 / 16, (s2 % 16) * 16 + s3 / 4]
        else
          match dec6 c4 with
          | some s4 => some [s1 * 4 + s2 / 16, (s2 % 16) * 16 + s3 / 4, (s3 % 4) * 64 + s4]
          | none => none
      | none => none
  | _, _ => none

/-- `base64.urlsafe_b64decode`; the `none` branches are where Python raises
`binascii.Error`. -/
def b64decode : PyStr → Option PyBytes
  | [] => some []
  | c1 :: c2 :: c3 :: c4 :: rest =>
    match b64decodeChunk c1 c2 c3 c4, b64decode rest with
    | some bs, some rs => some (bs ++ rs)
    | _, _ => none
  | _ => none

/-- The XOR loop `bytes(b ^ key[i % len(key)] for i, b in enumerate(data))`
shared by `encrypt_secret` and `decrypt_secret`. -/
def xorFrom (key : PyBytes) (i : Nat) : PyBytes → PyBytes
  | [] => []
  | b :: rest => (b ^^^ key.getD (i % key.length) 0) :: xorFrom key (i + 1) rest

/-- `crypto_utils.encrypt_secret` at the byte level. -/
def encrypt_secret (key : PyBytes) (secret : PyBytes) : PyStr :=
  b64encode (xorFrom key 0 secret)

/-- `crypto_utils.decrypt_secret` at the byte level. -/
def decrypt_secret (key : PyBytes) (token : PyStr) : Option PyBytes :=
  match b64decode token with
  | some data => some (xorFrom key 0 data)
  | none => none

theorem dec6_enc6 : ∀ n, n < 64 → dec6 (enc6 n) = some n := by decide

theorem enc6_ne_pad : ∀ n, n < 64 → enc6 n ≠ '=' := by decide

/-- Induction on a byte list in groups of three, matching the `b64encode`
recursion. -/
def chunk3Ind {motive : PyBytes → Prop} (h0 : motive []) (h1 : ∀ b1, motive [b1])
    (h2 : ∀ b1 b2, motive [b1, b2])
    (h3 : ∀ b1 b2 b3 rest, motive rest → motive (b1 :: b2 :: b3 :: rest)) :
    ∀ l, motive l
  | [] => h0
  | [b1] => h1 b1
  | [b1, b2] => h2 b1 b2
  | b1 :: b2 :: b3 :: rest => h3 b1 b2 b3 rest (chunk3Ind h0 h1 h2 h3 rest)

theorem b64_roundtrip (data : PyBytes) :
    (∀ b ∈ data, b < 256) → b64decode (b64encode data) = some data := by
  induction data using chunk3Ind with
  | h0 => intro _; rfl
  | h1 b1 =>
    intro h
    have hb1 : b1 < 256 := h b1 (by simp)
    have e1 : b1 / 4 * 4 + b1 % 4 * 16 / 16 = b1 := by omega
    simp [b64encode, b64decode, b64decodeChunk,
      dec6_enc6 _ (show b1 / 4 < 64 by omega),
      dec6_enc6 _ (show b1 % 4 * 16 < 64 by omega), e1]
    omega
  | h2 b1 b2 =>
    intro h
    have hb1 : b1 < 256 := h b1 (by simp)
    have hb2 : b2 < 256 := h b2 (by simp)
    have e1 : b1 / 4 * 4 + (b1 % 4 * 16 + b2 / 16) / 16 = b1 := by omega
    have e2 : (b1 % 4 * 16 + b2 / 16) % 16 * 16 + b2 % 16 * 4 / 4 = b2 := by omega
    simp [b64encode, b64decode, b64decodeChunk,
      dec6_enc6 _ (show b1 / 4 < 64 by omega),
      dec6_enc6 _ (show b1 % 4 * 16 + b2 / 16 < 64 by omega),
      dec6_enc6 _ (show b2 % 16 * 4 < 64 by omega),
      enc6_ne_pad _ (show b2 % 16 * 4 < 64 by omega), e1, e2]
    omega
  | h3 b1 b2 b3 rest ih =>
    intro h
    have hb1 : b1 < 256 := h b1 (by simp)
    have hb2 : b2 < 256 := h b2 (by simp)
    have hb3 : b3 < 256 := h b3 (by simp)
    have hrest : ∀ b ∈ rest, b < 256 := fun b hb => h b (by simp [hb])
    have e1 : b1 / 4 * 4 + (b1 % 4 * 16 + b2 / 16) / 16 = b1 := by omega
    have e2 : (b1 % 4 * 16 + b2 / 16) % 16 * 16 + (b2 % 16 * 4 + b3 / 64) / 4 = b2 := by omega
    have e3 : (b2 % 16 * 4 + b3 / 64) % 4 * 64 + b3 % 64 = b3 := by omega
    simp [b64encode, b64decode, b64decodeChunk,
      dec6_enc6 _ (show b1 / 4 < 64 by omega),
      dec6_enc6 _ (show b1 % 4 * 16 + b2 / 16 < 64 by omega),
      dec6_enc6 _ (show b2 % 16 * 4 + b3 / 64 < 64 by omega),
      dec6_enc6 _ (show b3 % 64 < 64 by omega),
      enc6_ne_pad _ (show b2 % 16 * 4 + b3 / 64 < 64 by omega),
      enc6_ne_pad _ (show b3 % 64 < 64 by omega),
      ih hrest, e1, e2, e3]

theorem xorFrom_lt (key : PyBytes) (hk : ∀ b ∈ key, b < 256) (i : Nat) :
    ∀ data : PyBytes, (∀ b ∈ data, b < 256) → ∀ b ∈ xorFrom key i data, b < 256 := by
  intro data
  induction data generalizing i with
  | nil => intro _ b hb; cases hb
  | cons x rest ih =>
    intro h b hb
    have hkey : key.getD (i % key.length) 0 < 256 := by
      rcases Nat.lt_or_ge (i % key.length) key.length with hlt | hge
      · rw [List.getD_eq_getElem _ _ hlt]
        exact hk _ (List.getElem_mem hlt)
      · rw [List.getD_eq_default _ _ hge]
        omega
    rw [xorFrom] at hb
    rcases List.mem_cons.mp hb with rfl | hb'
    · have hx : x < 256 := h x (by simp)
      have h256 : (256 : Nat) = 2 ^ 8 := by norm_num
      rw [h256] at hx hkey ⊢
      exact Nat.xor_lt_two_pow hx hkey
    · exact ih (i + 1) (fun y hy => h y (List.mem_cons_of_mem _ hy)) b hb'

theorem xorFrom_xorFrom (key : PyBytes) (i : Nat) (data : PyBytes) :
    xorFrom key i (xorFrom key i data) = data := by
  induction data generalizing i with
  | nil => rfl
  | cons b rest ih =>
    simp [xorFrom, Nat.xor_assoc, ih]

/-- C4: for every byte string and every key (in particular the 32-byte
SHA-256 digest of any non-empty passphrase), decrypting the encryption of a
secret under the same key returns exactly the secret. -/
theorem C4_crypto_roundtrip (key : PyBytes) (hk : ∀ b ∈ key, b < 256)
    (secret : PyBytes) (hs : ∀ b ∈ secret, b < 256) :
    decrypt_secret key (encrypt_secret key secret) = some secret := by
  unfold decrypt_secret encrypt_secret
  rw [b64_roundtrip _ (xorFrom_lt key hk 0 secret hs)]
  simp [xorFrom_xorFrom]

/-- Witness for C4 with a concrete 32-byte key and secret `b"hej"`. -/
theorem C4_crypto_roundtrip_witness :
    decrypt_secret (List.replicate 32 7) (encrypt_secret (List.replicate 32 7) [104, 101, 106]) =
      some [104, 101, 106] :=
  C4_crypto_roundtrip (List.replicate 32 7) (by decide) [104, 101, 106] (by decide)

/-- C1 (amended): parsing the Authorization header fails with HTTP 401 unless
the header begins with `AWS4-HMAC-SHA256`.  (The service component of the
Credential scope is not validated by the code; see the counterexample.) -/
theorem C1_parse_auth_requires_sigv4 (header : PyStr)
    (h : (pstr "AWS4-HMAC-SHA256").isPrefixOf header = false) :
    parse_authorization_header header =
      .error (.httpException 401 "Missing or invalid Authorization header") := by
  unfold parse_authorization_header
  simp [h]

/-- Witness for C1: a `Basic` scheme header is rejected with 401. -/
theorem C1_parse_auth_requires_sigv4_witness :
    parse_authorization_header (pstr "Basic abc") =
      .error (.httpException 401 "Missing or invalid Authorization header") :=
  C1_parse_auth_requires_sigv4 (pstr "Basic abc") (by decide)

/-- C1 counterexample: a syntactically complete SigV4 header whose Credential
scope names service `ec2` (not `s3`) parses successfully into components —
the code never checks the fourth Credential field, contradicting the claim
that such a header fails with 401. -/
theorem C1_counterexample :
    parse_authorization_header
        (pstr "AWS4-HMAC-SHA256 Credential=AKIA123/20250101/eu-west-1/ec2/aws4_request, SignedHeaders=host;x-amz-date, Signature=deadbeef") =
      .ok { access_key := pstr "AKIA123", region := pstr "eu-west-1",
            signed_headers := pstr "host;x-amz-date", signature := pstr "deadbeef" } := by
  rfl

/-! ## db.py — metadata store -/

/-- A `bucket_mappings` row. -/
structure MappingRow where
  id : Nat
  customer_id : PyStr
  region_id : PyStr
  logical_name : PyStr
  backend_id : PyStr
  backend_bucket : PyStr
deriving DecidableEq, Repr

/-- An `object_metadata` row. -/
structure ObjectRow where
  id : Nat
  bucket_mapping_id : Nat
  object_key : PyStr
  size : Nat
  etag : PyStr
  encrypted_key : Option PyStr
  residency : Option PyStr
  replica_count : Option Nat
  created_at : Nat
deriving DecidableEq, Repr

/-- A `replication_jobs` row. -/
structure JobRow where
  id : Nat
  bucket_mapping_id : Nat
  object_metadata_id : Nat
  source_backend_id : PyStr
  target_backend : PyStr
  status : PyStr
  attempts : Nat
  last_error : Option PyStr
  created_at : Nat
  updated_at : Nat
deriving DecidableEq, Repr

/-- A `tenant_credentials` row; `secret_key` models the decrypted secret the
Python fetch surfaces (the at-rest obfuscation round-trip is proved in the
crypto section). -/
structure TenantRow where
  customer_id : PyStr
  access_key : PyStr
  secret_key : PyStr
  created_at : Nat
deriving DecidableEq, Repr

/-- The SQLite metadata store. Rows are listed in rowid (insertion) order;
`job_seq` mirrors the AUTOINCREMENT sequence of `replication_jobs`;
timestamps are abstract naturals. -/
structure Store where
  tenant_credentials : List TenantRow
  bucket_mappings : List MappingRow
  object_metadata : List ObjectRow
  replication_jobs : List JobRow
  job_seq : Nat
deriving DecidableEq, Repr

/-- `db.fetch_tenant_by_access_key`: `SELECT ... WHERE access_key = ?`. -/
def fetch_tenant_by_access_key (s : Store) (access_key : PyStr) : Option TenantRow :=
  s.tenant_credentials.find? (fun t => t.access_key == access_key)

/-- `db.fetch_bucket_mapping`: `SELECT ... WHERE customer_id = ? AND
logical_name = ? AND backend_id = ?`. -/
def fetch_bucket_mapping (s : Store) (customer_id logical_name backend_id : PyStr) :
    Option MappingRow :=
  s.bucket_mappings.find? (fun m =>
    m.customer_id == customer_id && m.logical_name == logical_name && m.backend_id == backend_id)

/-- `db.insert_replication_job`: `INSERT INTO replication_jobs ... SELECT
bm.id, om.id, bm.backend_id, ? FROM object_metadata om JOIN bucket_mappings
bm ON om.bucket_mapping_id = bm.id WHERE om.id = ?`; zero affected rows
raises `ValueError("Object metadata not found")`. -/
def insert_replication_job (s : Store) (object_id : Nat) (target_backend : PyStr) (now : Nat) :
    Except PyError (Store × JobRow) :=
  match s.object_metadata.find? (fun om => om.id == object_id) with
  | none => .error (.valueError "Object metadata not found")
  | some om =>
    match s.bucket_mappings.find? (fun bm => bm.id == om.bucket_mapping_id) with
    | none => .error (.valueError "Object metadata not found")
    | some bm =>
      let job : JobRow :=
        { id := s.job_seq + 1, bucket_mapping_id := bm.id, object_metadata_id := om.id,
          source_backend_id := bm.backend_id, target_backend := target_backend,
          status := pstr "pending", attempts := 0, last_error := none,
          created_at := now, updated_at := now }
      let s' : Store :=
        { s with replication_jobs := s.replication_jobs ++ [job], job_seq := s.job_seq + 1 }
      .ok (s', job)

/-- The projection selected by `db.fetch_pending_jobs` (the joined columns
that `replication.process_pending_jobs` turns into a `ReplicationJob`). -/
structure PendingJobRow where
  id : Nat
  object_metadata_id : Nat
  source_backend_id : PyStr
  target_backend : PyStr
  attempts : Nat
  created_at : Nat
  customer_id : PyStr
  logical_name : PyStr
  backend_bucket : PyStr
  object_key : PyStr
  size : Nat
  etag : PyStr
  residency : Option PyStr
deriving DecidableEq, Repr

/-- The WHERE/JOIN part of `db.fetch_pending_jobs` applied to one job row:
keep it only when its status is `pending` and both inner joins resolve. -/
def joinPendingRow (s : Store) (r : JobRow) : Option PendingJobRow :=
  if r.status == pstr "pending" then
    match s.bucket_mappings.find? (fun bm => bm.id == r.bucket_mapping_id),
          s.object_metadata.find? (fun om => om.id == r.object_metadata_id) with
    | some bm, some om =>
      some { id := r.id, object_metadata_id := r.object_metadata_id,
             source_backend_id := r.source_backend_id, target_backend := r.target_backend,
             attempts := r.attempts, created_at := r.created_at,
             customer_id := bm.customer_id, logical_name := bm.logical_name,
             backend_bucket := bm.backend_bucket, object_key := om.object_key,
             size := om.size, etag := om.etag, residency := om.residency }
    | _, _ => none
  else none

/-- `db.fetch_pending_jobs`: `... WHERE r.status = 'pending' ORDER BY
r.created_at ASC LIMIT ?`. `ORDER BY` is modelled as a stable sort
(`List.mergeSort`) over the table scanned in rowid order. -/
def fetch_pending_jobs (s : Store) (limit : Nat) : List PendingJobRow :=
  (((s.replication_jobs.filterMap (joinPendingRow s)).mergeSort
      (fun a b => a.created_at ≤ b.created_at)).take limit)

/-- `db.mark_job_success`: `UPDATE replication_jobs SET status = 'completed',
updated_at = CURRENT_TIMESTAMP WHERE id = ?`. -/
def mark_job_success (s : Store) (job_id : Nat) (now : Nat) : Store :=
  { s with replication_jobs := s.replication_jobs.map (fun j =>
      if j.id == job_id then { j with status := pstr "completed", updated_at := now } else j) }

/-- `db.mark_job_failure`: `UPDATE replication_jobs SET status = 'failed',
attempts = attempts + 1, last_error = ?, updated_at = CURRENT_TIMESTAMP
WHERE id = ?`. -/
def mark_job_failure (s : Store) (job_id : Nat) (error : PyStr) (now : Nat) : Store :=
  { s with replication_jobs := s.replication_jobs.map (fun j =>
      if j.id == job_id then
        { j with status := pstr "failed", attempts := j.attempts + 1, last_error := some error, updated_at := now }
      else j) }

/-- `replication.process_pending_jobs`: fetch pending rows, run the handler
on each in order, mark success on normal return and failure on exception
(the handler's backend I/O is modelled by its outcome), count rows. -/
def process_pending_jobs (s : Store) (handler : PendingJobRow → Except PyStr Unit)
    (limit : Nat) (now : Nat) : Store × Nat :=
  (fetch_pending_jobs s limit).foldl
    (fun acc row =>
      match handler row with
      | .ok _ => (mark_job_success acc.1 row.id now, acc.2 + 1)
      | .error e => (mark_job_failure acc.1 row.id e now, acc.2 + 1))
    (s, 0)

/-- `proxy_meta.create_replication_job` (`POST /proxy/jobs`) with admin
check and payload validation assumed passed: it just calls
`insert_replication_job` and projects the row. -/
def create_replication_job (s : Store) (object_id : Nat) (target_backend : PyStr) (now : Nat) :
    Except PyError (Store × JobRow) :=
  insert_replication_job s object_id target_backend now

/-- Well-formedness maintained by the SQLite schema and the writers:
unique ids per table, and `created_at` of `replication_jobs` nondecreasing
in rowid order (CURRENT_TIMESTAMP is nondecreasing across inserts). -/
def WFStore (s : Store) : Prop :=
  s.replication_jobs.Pairwise (fun a b => a.id ≠ b.id) ∧
  s.replication_jobs.Pairwise (fun a b => a.created_at ≤ b.created_at) ∧
  s.bucket_mappings.Pairwise (fun a b => a.id ≠ b.id) ∧
  s.object_metadata.Pairwise (fun a b => a.id ≠ b.id)

/-- An empty store. -/
def emptyStore : Store :=
  { tenant_credentials := [], bucket_mappings := [], object_metadata := [],
    replication_jobs := [], job_seq := 0 }

theorem unique_of_pairwise_ne {α : Type} (f : α → Nat) {l : List α}
    (hp : l.Pairwise (fun a b => f a ≠ f b)) :
    ∀ a ∈ l, ∀ b ∈ l, f a = f b → a = b := by
  induction l with
  | nil => intro a ha; cases ha
  | cons x rest ih =>
    rcases List.pairwise_cons.mp hp with ⟨hx, hrest⟩
    intro a ha b hb hfab
    rcases List.mem_cons.mp ha with rfl | ha' <;> rcases List.mem_cons.mp hb with rfl | hb'
    · rfl
    · exact absurd hfab (hx b hb')
    · exact absurd hfab.symm (hx a ha')
    · exact ih hrest a ha' b hb' hfab

/-- C6 (code-bug evidence): `POST /proxy/jobs` with an `object_id` that has
no object-metadata row makes `insert_replication_job` raise the bare
`ValueError("Object metadata not found")` — which FastAPI surfaces as HTTP
500, not the 404 the spec requires — and no modified store is produced, so
the `replication_jobs` table is unchanged. -/
theorem C6_missing_object_value_error :
    create_replication_job emptyStore 1 (pstr "cluster-b") 0 =
      .error (.valueError "Object metadata not found") := rfl

/-- C7: every successfully inserted replication job takes its
`source_backend_id` from the `backend_id` of the mapping row owning the
referenced object metadata, and its `bucket_mapping_id` from that mapping's
id, whatever target backend is supplied. -/
theorem C7_job_source_is_owning_mapping (s : Store) (hwf : WFStore s)
    (object_id : Nat) (target_backend : PyStr) (now : Nat) (s' : Store) (job : JobRow)
    (h : insert_replication_job s object_id target_backend now = .ok (s', job)) :
    ∃ om ∈ s.object_metadata, om.id = object_id ∧
      (∃ bm ∈ s.bucket_mappings, bm.id = om.bucket_mapping_id) ∧
      ∀ bm ∈ s.bucket_mappings, bm.id = om.bucket_mapping_id →
        job.source_backend_id = bm.backend_id ∧ job.bucket_mapping_id = bm.id := by
  unfold insert_replication_job at h
  cases hom : s.object_metadata.find? (fun om => om.id == object_id) with
  | none => rw [hom] at h; cases h
  | some om =>
    rw [hom] at h
    dsimp only at h
    cases hbm : s.bucket_mappings.find? (fun bm => bm.id == om.bucket_mapping_id) with
    | none => rw [hbm] at h; cases h
    | some bm0 =>
      rw [hbm] at h
      dsimp only at h
      simp only [Except.ok.injEq, Prod.mk.injEq] at h
      obtain ⟨hs', hjob⟩ := h
      have hbm0_mem := List.mem_of_find?_eq_some hbm
      have hbm0_id : bm0.id = om.bucket_mapping_id := by
        simpa using List.find?_some hbm
      refine ⟨om, List.mem_of_find?_eq_some hom, by simpa using List.find?_some hom,
        ⟨bm0, hbm0_mem, hbm0_id⟩, ?_⟩
      intro bm hbm_mem hbm_id
      have hbmeq : bm = bm0 :=
        unique_of_pairwise_ne (fun m => m.id) hwf.2.2.1 bm hbm_mem bm0 hbm0_mem
          (by show bm.id = bm0.id; rw [hbm_id, hbm0_id])
      subst hbmeq
      rw [← hjob]
      exact ⟨rfl, hbm0_id.symm ▸ rfl⟩

/-- A concrete mapping row used by store witnesses. -/
def mapW : MappingRow :=
  { id := 10, customer_id := pstr "tenant", region_id := pstr "fi",
    logical_name := pstr "logs", backend_id := pstr "cluster-a",
    backend_bucket := pstr "s3gw-aaaa-cluster" }

/-- A concrete object-metadata row used by store witnesses. -/
def omW : ObjectRow :=
  { id := 1, bucket_mapping_id := 10, object_key := pstr "foo.txt", size := 5,
    etag := pstr "etag", encrypted_key := none, residency := none,
    replica_count := none, created_at := 0 }

/-- A concrete store used by witnesses. -/
def storeW : Store :=
  { tenant_credentials := [], bucket_mappings := [mapW], object_metadata := [omW],
    replication_jobs := [], job_seq := 0 }

/-- The job row `insert_replication_job` produces on `storeW`. -/
def jobW : JobRow :=
  { id := 1, bucket_mapping_id := 10, object_metadata_id := 1,
    source_backend_id := pstr "cluster-a", target_backend := pstr "cluster-b",
    status := pstr "pending", attempts := 0, last_error := none,
    created_at := 5, updated_at := 5 }

/-- The store after inserting `jobW` into `storeW`. -/
def storeW' : Store := { storeW with replication_jobs := [jobW], job_seq := 1 }

/-- Witness for C7 on the concrete store. -/
theorem C7_job_source_is_owning_mapping_witness :
    ∃ om ∈ storeW.object_metadata, om.id = 1 ∧
      (∃ bm ∈ storeW.bucket_mappings, bm.id = om.bucket_mapping_id) ∧
      ∀ bm ∈ storeW.bucket_mappings, bm.id = om.bucket_mapping_id →
        jobW.source_backend_id = bm.backend_id ∧ jobW.bucket_mapping_id = bm.id :=
  C7_job_source_is_owning_mapping storeW (by simp [WFStore, storeW]) 1 (pstr "cluster-b") 5
    storeW' jobW rfl

theorem joinPendingRow_some {s : Store} {j : JobRow} {r : PendingJobRow}
    (h : joinPendingRow s j = some r) :
    r.id = j.id ∧ r.created_at = j.created_at ∧ r.attempts = j.attempts ∧
      j.status = pstr "pending" := by
  unfold joinPendingRow at h
  by_cases hst : (j.status == pstr "pending") = true
  · rw [if_pos hst] at h
    cases hbm : s.bucket_mappings.find? (fun bm => bm.id == j.bucket_mapping_id) with
    | none => rw [hbm] at h; dsimp only at h; cases h
    | some bm =>
      cases hom2 : s.object_metadata.find? (fun om => om.id == j.object_metadata_id) with
      | none => rw [hbm, hom2] at h; dsimp only at h; cases h
      | some om =>
        rw [hbm, hom2] at h
        dsimp only at h
        have hr := (Option.some.injEq _ _).mp h
        rw [← hr]
        exact ⟨rfl, rfl, rfl, eq_of_beq hst⟩
  · rw [if_neg hst] at h
    cases h

/-- Under well-formedness the `ORDER BY created_at` sort is the identity, so
`fetch_pending_jobs` is: scan in rowid order, keep pending joinable rows,
take `limit`. -/
theorem fetch_pending_eq (s : Store) (hwf : WFStore s) (limit : Nat) :
    fetch_pending_jobs s limit =
      (s.replication_jobs.filterMap (joinPendingRow s)).take limit := by
  unfold fetch_pending_jobs
  congr 1
  apply List.mergeSort_of_sorted
  apply List.Pairwise.filterMap (joinPendingRow s) ?_ hwf.2.1
  intro a a' hle b hb b' hb'
  have h1 := (joinPendingRow_some (Option.mem_def.mp hb)).2.1
  have h2 := (joinPendingRow_some (Option.mem_def.mp hb')).2.1
  simp only [decide_eq_true_eq, h1, h2]
  exact hle

theorem processFold_count (handler : PendingJobRow → Except PyStr Unit) (now : Nat) :
    ∀ (rows : List PendingJobRow) (s0 : Store) (n0 : Nat),
      (rows.foldl (fun acc row =>
        match handler row with
        | .ok _ => (mark_job_success acc.1 row.id now, acc.2 + 1)
        | .error e => (mark_job_failure acc.1 row.id e now, acc.2 + 1)) (s0, n0)).2 =
        n0 + rows.length := by
  intro rows
  induction rows with
  | nil => intro s0 n0; simp
  | cons r rest ih =>
    intro s0 n0
    cases hh : handler r with
    | ok u =>
      simp only [List.foldl_cons, hh, List.length_cons]
      rw [ih]
      omega
    | error e =>
      simp only [List.foldl_cons, hh, List.length_cons]
      rw [ih]
      omega

/-- C8: `fetch_pending_jobs` returns exactly the pending (joinable) jobs in
insertion (rowid) order truncated to `limit`; every returned row stems from
a pending job; at most `limit` rows come back; and the worker's
`process_pending_jobs` handles exactly those rows. -/
theorem C8_fetch_pending_fifo (s : Store) (hwf : WFStore s) (limit : Nat)
    (handler : PendingJobRow → Except PyStr Unit) (now : Nat) :
    fetch_pending_jobs s limit =
      (s.replication_jobs.filterMap (joinPendingRow s)).take limit ∧
    (∀ r ∈ fetch_pending_jobs s limit,
      ∃ j ∈ s.replication_jobs, j.id = r.id ∧ j.status = pstr "pending") ∧
    (fetch_pending_jobs s limit).length ≤ limit ∧
    (process_pending_jobs s handler limit now).2 = (fetch_pending_jobs s limit).length := by
  have hfe := fetch_pending_eq s hwf limit
  refine ⟨hfe, ?_, ?_, ?_⟩
  · intro r hr
    rw [hfe] at hr
    have hr' := List.take_subset _ _ hr
    obtain ⟨j, hj_mem, hj⟩ := List.mem_filterMap.mp hr'
    obtain ⟨hid, _, _, hstatus⟩ := joinPendingRow_some hj
    exact ⟨j, hj_mem, hid.symm, hstatus⟩
  · rw [hfe]
    exact List.length_take_le _ _
  · unfold process_pending_jobs
    rw [processFold_count handler now (fetch_pending_jobs s limit) s 0]
    omega

/-- Witness for C8 on the concrete one-job store. -/
theorem C8_fetch_pending_fifo_witness :
    fetch_pending_jobs storeW' 10 =
      (storeW'.replication_jobs.filterMap (joinPendingRow storeW')).take 10 ∧
    (∀ r ∈ fetch_pending_jobs storeW' 10,
      ∃ j ∈ storeW'.replication_jobs, j.id = r.id ∧ j.status = pstr "pending") ∧
    (fetch_pending_jobs storeW' 10).length ≤ 10 ∧
    (process_pending_jobs storeW' (fun _ => .ok ()) 10 7).2 =
      (fetch_pending_jobs storeW' 10).length :=
  C8_fetch_pending_fifo storeW'
    (by simp [WFStore, storeW', storeW, jobW]) 10 (fun _ => .ok ()) 7

/-- C10: `mark_job_success` changes only the matched job's `status` and
`updated_at`: every other table and the job sequence are untouched, the job
list keeps its length and order, rows with a different id are identical,
and even the matched row keeps its attempts, last_error, backend ids,
references and created_at. -/
theorem C10_mark_success_frame (s : Store) (job_id : Nat) (now : Nat) :
    (mark_job_success s job_id now).tenant_credentials = s.tenant_credentials ∧
    (mark_job_success s job_id now).bucket_mappings = s.bucket_mappings ∧
    (mark_job_success s job_id now).object_metadata = s.object_metadata ∧
    (mark_job_success s job_id now).job_seq = s.job_seq ∧
    List.Forall₂ (fun j j' =>
        j'.id = j.id ∧ j'.bucket_mapping_id = j.bucket_mapping_id ∧
        j'.object_metadata_id = j.object_metadata_id ∧
        j'.source_backend_id = j.source_backend_id ∧
        j'.target_backend = j.target_backend ∧
        j'.attempts = j.attempts ∧ j'.last_error = j.last_error ∧
        j'.created_at = j.created_at ∧
        (j.id ≠ job_id → j' = j) ∧
        (j.id = job_id → j'.status = pstr "completed" ∧ j'.updated_at = now))
      s.replication_jobs (mark_job_success s job_id now).replication_jobs := by
  refine ⟨rfl, rfl, rfl, rfl, ?_⟩
  unfold mark_job_success
  rw [List.forall₂_map_right_iff]
  rw [List.forall₂_same]
  intro j _
  by_cases hid : (j.id == job_id) = true
  · rw [if_pos hid]
    have hid' := eq_of_beq hid
    exact ⟨rfl, rfl, rfl, rfl, rfl, rfl, rfl, rfl,
      fun hne => absurd hid' hne, fun _ => ⟨rfl, rfl⟩⟩
  · rw [if_neg hid]
    exact ⟨rfl, rfl, rfl, rfl, rfl, rfl, rfl, rfl, fun _ => rfl,
      fun heq => absurd heq (by simpa using hid)⟩

/-- Witness for C10 on the concrete one-job store. -/
theorem C10_mark_success_frame_witness :
    (mark_job_success storeW' 1 99).tenant_credentials = storeW'.tenant_credentials ∧
    (mark_job_success storeW' 1 99).bucket_mappings = storeW'.bucket_mappings ∧
    (mark_job_success storeW' 1 99).object_metadata = storeW'.object_metadata ∧
    (mark_job_success storeW' 1 99).job_seq = storeW'.job_seq ∧
    List.Forall₂ (fun j j' =>
        j'.id = j.id ∧ j'.bucket_mapping_id = j.bucket_mapping_id ∧
        j'.object_metadata_id = j.object_metadata_id ∧
        j'.source_backend_id = j.source_backend_id ∧
        j'.target_backend = j.target_backend ∧
        j'.attempts = j.attempts ∧ j'.last_error = j.last_error ∧
        j'.created_at = j.created_at ∧
        (j.id ≠ 1 → j' = j) ∧
        (j.id = 1 → j'.status = pstr "completed" ∧ j'.updated_at = 99))
      storeW'.replication_jobs (mark_job_success storeW' 1 99).replication_jobs :=
  C10_mark_success_frame storeW' 1 99

/-- The update `process_pending_jobs` applies to every job row when it marks
the claimed row `r`: `mark_job_success` on normal handler return,
`mark_job_failure` on exception. -/
def markUpdate (handler : PendingJobRow → Except PyStr Unit) (now : Nat)
    (r : PendingJobRow) (j : JobRow) : JobRow :=
  match handler r with
  | .ok _ =>
    if j.id == r.id then { j with status := pstr "completed", updated_at := now } else j
  | .error e =>
    if j.id == r.id then
      { j with status := pstr "failed", attempts := j.attempts + 1, last_error := some e, updated_at := now }
    else j

theorem markUpdate_id (handler : PendingJobRow → Except PyStr Unit) (now : Nat)
    (r : PendingJobRow) (j : JobRow) : (markUpdate handler now r j).id = j.id := by
  unfold markUpdate
  cases handler r <;> dsimp only <;> split <;> rfl

theorem markUpdate_skip (handler : PendingJobRow → Except PyStr Unit) (now : Nat)
    {r : PendingJobRow} {j : JobRow} (h : r.id ≠ j.id) :
    markUpdate handler now r j = j := by
  unfold markUpdate
  have hne : ¬ ((j.id == r.id) = true) := by
    simp only [beq_iff_eq]
    exact fun he => h (he.symm)
  cases handler r <;> dsimp only <;> rw [if_neg hne]

theorem foldl_markUpdate_id (handler : PendingJobRow → Except PyStr Unit) (now : Nat)
    (rows : List PendingJobRow) : ∀ j : JobRow,
    (rows.foldl (fun j r => markUpdate handler now r j) j).id = j.id := by
  induction rows with
  | nil => intro j; rfl
  | cons r rest ih =>
    intro j
    rw [List.foldl_cons, ih, markUpdate_id]

theorem foldl_markUpdate_skip (handler : PendingJobRow → Except PyStr Unit) (now : Nat)
    {rows : List PendingJobRow} {j : JobRow} (h : ∀ r ∈ rows, r.id ≠ j.id) :
    rows.foldl (fun j r => markUpdate handler now r j) j = j := by
  induction rows with
  | nil => rfl
  | cons r rest ih =>
    rw [List.foldl_cons, markUpdate_skip handler now (h r (List.mem_cons_self r rest)),
      ih (fun x hx => h x (List.mem_cons_of_mem _ hx))]

theorem foldl_markUpdate_single (handler : PendingJobRow → Except PyStr Unit) (now : Nat)
    {rows : List PendingJobRow} (hdist : rows.Pairwise (fun a b => a.id ≠ b.id))
    {r : PendingJobRow} (hr : r ∈ rows) {j : JobRow} (hid : r.id = j.id) :
    rows.foldl (fun j r => markUpdate handler now r j) j = markUpdate handler now r j := by
  obtain ⟨l1, l2, rfl⟩ := List.append_of_mem hr
  rcases List.pairwise_append.mp hdist with ⟨_, h2, h12⟩
  have hl1 : ∀ a ∈ l1, a.id ≠ j.id := by
    intro a ha
    rw [← hid]
    exact h12 a ha r (List.mem_cons_self r l2)
  have hl2 : ∀ b ∈ l2, b.id ≠ j.id := by
    intro b hb
    rw [← hid]
    exact fun hb_eq => (List.pairwise_cons.mp h2).1 b hb hb_eq.symm
  rw [List.foldl_append, foldl_markUpdate_skip handler now hl1, List.foldl_cons]
  apply foldl_markUpdate_skip handler now
  intro b hb
  rw [markUpdate_id]
  exact hl2 b hb

theorem processFold_jobs (handler : PendingJobRow → Except PyStr Unit) (now : Nat) :
    ∀ (rows : List PendingJobRow) (s0 : Store) (n0 : Nat),
      ((rows.foldl (fun acc row =>
        match handler row with
        | .ok _ => (mark_job_success acc.1 row.id now, acc.2 + 1)
        | .error e => (mark_job_failure acc.1 row.id e now, acc.2 + 1)) (s0, n0)).1).replication_jobs =
      s0.replication_jobs.map
        (fun j => rows.foldl (fun j r => markUpdate handler now r j) j) := by
  intro rows
  induction rows with
  | nil =>
    intro s0 n0
    simp
  | cons r rest ih =>
    intro s0 n0
    cases hh : handler r with
    | ok u =>
      simp only [List.foldl_cons, hh]
      rw [ih (mark_job_success s0 r.id now) (n0 + 1)]
      unfold mark_job_success
      dsimp only
      rw [List.map_map]
      apply List.map_congr_left
      intro j _
      simp only [Function.comp, List.foldl_cons]
      congr 1
      unfold markUpdate
      rw [hh]
    | error e =>
      simp only [List.foldl_cons, hh]
      rw [ih (mark_job_failure s0 r.id e now) (n0 + 1)]
      unfold mark_job_failure
      dsimp only
      rw [List.map_map]
      apply List.map_congr_left
      intro j _
      simp only [Function.comp, List.foldl_cons]
      congr 1
      unfold markUpdate
      rw [hh]

theorem fetch_rows_distinct (s : Store) (hwf : WFStore s) (limit : Nat) :
    (fetch_pending_jobs s limit).Pairwise (fun a b => a.id ≠ b.id) := by
  rw [fetch_pending_eq s hwf limit]
  apply List.Pairwise.sublist (List.take_sublist _ _)
  apply List.Pairwise.filterMap (joinPendingRow s) ?_ hwf.1
  intro a a' hne b hb b' hb'
  have h1 := (joinPendingRow_some (Option.mem_def.mp hb)).1
  have h2 := (joinPendingRow_some (Option.mem_def.mp hb')).1
  rw [h1, h2]
  exact hne

theorem fetch_row_origin (s : Store) (hwf : WFStore s) (limit : Nat)
    {r : PendingJobRow} (hr : r ∈ fetch_pending_jobs s limit) :
    ∃ j ∈ s.replication_jobs,
      j.id = r.id ∧ j.status = pstr "pending" ∧ j.attempts = r.attempts := by
  rw [fetch_pending_eq s hwf limit] at hr
  obtain ⟨j, hj_mem, hj⟩ := List.mem_filterMap.mp (List.take_subset _ _ hr)
  obtain ⟨hid, _, hatt, hstatus⟩ := joinPendingRow_some hj
  exact ⟨j, hj_mem, hid.symm, hstatus, hatt.symm⟩

/-- C5: after a worker batch every claimed job is terminal: `completed` when
its handler returned normally, `failed` with attempts incremented and the
error recorded when the handler raised; and no worker operation ever sets a
status (back) to `pending` — any job pending afterwards was already pending
before, so a `completed` job is never transitioned to `pending`. -/
theorem C5_worker_terminal_status (s : Store) (hwf : WFStore s)
    (handler : PendingJobRow → Except PyStr Unit) (limit now : Nat) :
    (∀ r ∈ fetch_pending_jobs s limit,
      ∀ j' ∈ (process_pending_jobs s handler limit now).1.replication_jobs, j'.id = r.id →
        (∀ u, handler r = .ok u → j'.status = pstr "completed") ∧
        (∀ e, handler r = .error e →
          j'.status = pstr "failed" ∧ j'.attempts = r.attempts + 1 ∧
            j'.last_error = some e)) ∧
    (∀ j' ∈ (process_pending_jobs s handler limit now).1.replication_jobs,
      j'.status = pstr "pending" →
        ∃ j ∈ s.replication_jobs, j.id = j'.id ∧ j.status = pstr "pending") := by
  have hjobs : (process_pending_jobs s handler limit now).1.replication_jobs =
      s.replication_jobs.map
        (fun j => (fetch_pending_jobs s limit).foldl
          (fun j r => markUpdate handler now r j) j) := by
    unfold process_pending_jobs
    exact processFold_jobs handler now (fetch_pending_jobs s limit) s 0
  have hdist := fetch_rows_distinct s hwf limit
  constructor
  · intro r hr j' hj' hid_eq
    rw [hjobs] at hj'
    obtain ⟨j, hj_mem, hfj⟩ := List.mem_map.mp hj'
    have hjid : j'.id = j.id := by
      rw [← hfj]
      exact foldl_markUpdate_id handler now _ j
    have hr_id : r.id = j.id := by rw [← hid_eq, hjid]
    have hj'_eq : j' = markUpdate handler now r j := by
      rw [← hfj, foldl_markUpdate_single handler now hdist hr hr_id]
    have hidp : (j.id == r.id) = true := by simp [hr_id]
    obtain ⟨j0, hj0_mem, hj0_id, hj0_status, hj0_att⟩ := fetch_row_origin s hwf limit hr
    have hj0j : j0 = j :=
      unique_of_pairwise_ne (fun x => x.id) hwf.1 j0 hj0_mem j hj_mem
        (by show j0.id = j.id; rw [hj0_id, hr_id])
    constructor
    · intro u hu
      rw [hj'_eq]
      unfold markUpdate
      rw [hu]
      dsimp only
      rw [if_pos hidp]
    · intro e he
      rw [hj'_eq]
      unfold markUpdate
      rw [he]
      dsimp only
      rw [if_pos hidp]
      refine ⟨rfl, ?_, rfl⟩
      dsimp only
      rw [← hj0j, hj0_att]
  · intro j' hj' hpending
    rw [hjobs] at hj'
    obtain ⟨j, hj_mem, hfj⟩ := List.mem_map.mp hj'
    by_cases hmatch : ∃ r ∈ fetch_pending_jobs s limit, r.id = j.id
    · obtain ⟨r, hr_mem, hr_id⟩ := hmatch
      have hj'_eq : j' = markUpdate handler now r j := by
        rw [← hfj, foldl_markUpdate_single handler now hdist hr_mem hr_id]
      have hidp : (j.id == r.id) = true := by simp [hr_id]
      exfalso
      cases hh : handler r with
      | ok u =>
        rw [hj'_eq] at hpending
        unfold markUpdate at hpending
        rw [hh] at hpending
        dsimp only at hpending
        rw [if_pos hidp] at hpending
        exact (by decide : pstr "completed" ≠ pstr "pending") hpending
      | error e =>
        rw [hj'_eq] at hpending
        unfold markUpdate at hpending
        rw [hh] at hpending
        dsimp only at hpending
        rw [if_pos hidp] at hpending
        exact (by decide : pstr "failed" ≠ pstr "pending") hpending
    · push_neg at hmatch
      have hthis : j' = j := by
        rw [← hfj, foldl_markUpdate_skip handler now hmatch]
      refine ⟨j, hj_mem, by rw [hthis], ?_⟩
      rw [← hthis]
      exact hpending

/-- Witness for C5 on the concrete one-job store with an always-failing
handler. -/
theorem C5_worker_terminal_status_witness :
    (∀ r ∈ fetch_pending_jobs storeW' 10,
      ∀ j' ∈ (process_pending_jobs storeW' (fun _ => .error (pstr "boom")) 10 7).1.replication_jobs,
        j'.id = r.id →
        (∀ u, (fun (_ : PendingJobRow) => (.error (pstr "boom") : Except PyStr Unit)) r = .ok u →
          j'.status = pstr "completed") ∧
        (∀ e, (fun (_ : PendingJobRow) => (.error (pstr "boom") : Except PyStr Unit)) r = .error e →
          j'.status = pstr "failed" ∧ j'.attempts = r.attempts + 1 ∧
            j'.last_error = some e)) ∧
    (∀ j' ∈ (process_pending_jobs storeW' (fun _ => .error (pstr "boom")) 10 7).1.replication_jobs,
      j'.status = pstr "pending" →
        ∃ j ∈ storeW'.replication_jobs, j.id = j'.id ∧ j.status = pstr "pending") :=
  C5_worker_terminal_status storeW' (by simp [WFStore, storeW', storeW, jobW])
    (fun _ => .error (pstr "boom")) 10 7

/-! ## proxy_router.py — data plane -/

/-- The inputs botocore's `SigV4Auth(credentials, "s3", region).add_auth`
receives in `verify_signature`: the AWSRequest (method, url, body, filtered
headers) and the credentials/region; the service is the constant `s3`. -/
structure SigningInput where
  method : PyStr
  url : PyStr
  body : PyBytes
  headers : List (PyStr × PyStr)
  access_key : PyStr
  secret_key : PyStr
  region : PyStr

/-- The outcome of botocore `add_auth`: the `Authorization` header it set on
the request (`None` when absent). -/
abbrev SigV4Oracle := SigningInput → Option PyStr

/-- An incoming data-plane HTTP request. -/
structure ProxyRequest where
  method : PyStr
  url : PyStr
  headers : List (PyStr × PyStr)
  query_backend_id : Option PyStr
  body : PyBytes

/-- Starlette's case-insensitive `request.headers.get(name)` (`name` given
in lowercase). -/
def getHeader (req : ProxyRequest) (name : PyStr) : Option PyStr :=
  (req.headers.find? (fun kv => pyLower kv.1 == name)).map (fun kv => kv.2)

/-- The prefix of `l` before the first occurrence of `sep`, `none` when
`sep` does not occur. -/
def tillFirstOcc (sep : PyStr) : PyStr → Option PyStr
  | [] => if sep.isEmpty then some [] else none
  | c :: rest =>
    if sep.isPrefixOf (c :: rest) then some []
    else (tillFirstOcc sep rest).map (fun t => c :: t)

/-- Python `s.split(sep)[-1]` for a non-empty separator: the suffix after
the last occurrence of `sep`, or the whole string when `sep` is absent
(computed as the reversed prefix before the first occurrence in the
reversed string). -/
def pySplitLast (sep l : PyStr) : PyStr :=
  match tillFirstOcc sep.reverse l.reverse with
  | some t => t.reverse
  | none => l

/-- The AWSRequest `verify_signature` hands to botocore: the signed-header
names (split on `;`, stripped, empties dropped) looked up in the lowercased
request headers. -/
def build_signing_input (req : ProxyRequest) (body : PyBytes)
    (components : SigV4Components) (secret_key : PyStr) : SigningInput :=
  let signed_names := ((splitChar ';' components.signed_headers).map pyStrip).filter
    (fun n => !n.isEmpty)
  let lower_headers := req.headers.foldl (fun d kv => dictSet d (pyLower kv.1) kv.2) []
  let filtered_headers := signed_names.foldl (fun acc name =>
    match dictGet lower_headers name with
    | some v => dictSet acc name v
    | none => acc) []
  { method := req.method, url := req.url, body := body, headers := filtered_headers,
    access_key := components.access_key, secret_key := secret_key,
    region := components.region }

/-- `proxy_router.verify_signature`: re-sign via botocore (the oracle) and
compare `generated.split("Signature=")[-1]` byte-for-byte with the client
signature; mismatch is 401 "Signature mismatch". -/
def verify_signature (oracle : SigV4Oracle) (req : ProxyRequest) (body : PyBytes)
    (components : SigV4Components) (secret_key : PyStr) : Except PyError Unit :=
  match oracle (build_signing_input req body components secret_key) with
  | none => .error (.httpException 401 "Unable to verify signature")
  | some generated =>
    let generated_sig := pySplitLast (pstr "Signature=") generated
    if generated_sig == components.signature then .ok ()
    else .error (.httpException 401 "Signature mismatch")

/-- A call to a backend S3 client observed at the proxy. -/
inductive BackendCall where
  | get_object (backend_id bucket key : PyStr)
  | put_object (backend_id bucket key : PyStr) (body : PyBytes) (content_type : Option PyStr)
  | delete_object (backend_id bucket key : PyStr)
  | head_object (backend_id bucket key : PyStr)
deriving DecidableEq, Repr

/-- Abstract behaviour of `backend_clients`: which backend ids
`get_client` resolves (endpoint + credentials configured) and what each
object operation returns; `.error` models a raised boto exception. -/
structure Backends where
  configured : PyStr → Bool
  get_object : PyStr → PyStr → PyStr → Except PyStr (PyBytes × Option PyStr × Option PyStr)
  put_object : PyStr → PyStr → PyStr → PyBytes → Option PyStr → Except PyStr Unit
  delete_object : PyStr → PyStr → PyStr → Except PyStr Unit
  head_object : PyStr → PyStr → PyStr → Except PyStr (Option PyStr)

/-- `backend_clients.DEFAULT_BACKEND_ID` (environment default, `primary`
when unset). -/
def DEFAULT_BACKEND_ID : PyStr := pstr "primary"

/-- A data-plane response. -/
inductive ProxyResponse where
  | streaming (body : PyBytes) (media_type : PyStr) (etag : PyStr)
  | json_uploaded (backend : PyStr)
  | json_deleted (backend : PyStr)
  | head_ok (etag : PyStr)
deriving DecidableEq, Repr

/-- An uncaught backend exception surfacing out of the route handler. -/
inductive ProxyOutcome where
  | response (r : ProxyResponse)
  | httpError (e : PyError)
  | backendException (msg : PyStr)
deriving DecidableEq, Repr

/-- `proxy_router.proxy_request` with an effect trace: parse the
Authorization header, look up the tenant, verify the signature, resolve the
backend bucket, fetch the client and dispatch the verb; the second
component lists the backend-client calls made, in order. -/
def proxy_request (oracle : SigV4Oracle) (backends : Backends) (s : Store)
    (logical_name object_path : PyStr) (req : ProxyRequest) :
    ProxyOutcome × List BackendCall :=
  let body := req.body
  let auth_header := (getHeader req (pstr "authorization")).getD []
  match parse_authorization_header auth_header with
  | .error e => (.httpError e, [])
  | .ok components =>
    match fetch_tenant_by_access_key s components.access_key with
    | none => (.httpError (.httpException 403 "Unknown access key"), [])
    | some credential =>
      match verify_signature oracle req body components credential.secret_key with
      | .error e => (.httpError e, [])
      | .ok _ =>
        let backend_id := match req.query_backend_id with
          | some v => if v.isEmpty then DEFAULT_BACKEND_ID else v
          | none => DEFAULT_BACKEND_ID
        match fetch_bucket_mapping s credential.customer_id logical_name backend_id with
        | none => (.httpError (.httpException 404 "Bucket mapping not found for backend"), [])
        | some row =>
          let backend_bucket := row.backend_bucket
          if !(backends.configured backend_id) then
            (.httpError (.httpException 500 "S3 backend not configured"), [])
          else
            let key := object_path
            if req.method == pstr "GET" then
              match backends.get_object backend_id backend_bucket key with
              | .ok (obody, ct, etag) =>
                (.response (.streaming obody (ct.getD (pstr "application/octet-stream")) (etag.getD [])),
                 [.get_object backend_id backend_bucket key])
              | .error msg =>
                (.backendException msg, [.get_object backend_id backend_bucket key])
            else if req.method == pstr "PUT" then
              let ct := getHeader req (pstr "content-type")
              match backends.put_object backend_id backend_bucket key body ct with
              | .ok _ =>
                (.response (.json_uploaded backend_id),
                 [.put_object backend_id backend_bucket key body ct])
              | .error msg =>
                (.backendException msg, [.put_object backend_id backend_bucket key body ct])
            else if req.method == pstr "DELETE" then
              match backends.delete_object backend_id backend_bucket key with
              | .ok _ =>
                (.response (.json_deleted backend_id),
                 [.delete_object backend_id backend_bucket key])
              | .error msg =>
                (.backendException msg, [.delete_object backend_id backend_bucket key])
            else if req.method == pstr "HEAD" then
              match backends.head_object backend_id backend_bucket key with
              | .ok etag =>
                (.response (.head_ok (etag.getD [])),
                 [.head_object backend_id backend_bucket key])
              | .error msg =>
                (.backendException msg, [.head_object backend_id backend_bucket key])
            else
              (.httpError (.httpException 405 "Method not supported"), [])

/-- C2: whenever the signature recomputed from the stored tenant secret
(botocore re-signing, modelled by the oracle) differs from the
client-supplied signature, `proxy_request` answers 401 "Signature mismatch"
and performs no backend-client call at all — the backend is reached only
after `verify_signature` returns without error. -/
theorem C2_mismatch_never_reaches_backend (oracle : SigV4Oracle) (backends : Backends)
    (s : Store) (logical_name object_path : PyStr) (req : ProxyRequest)
    (components : SigV4Components) (credential : TenantRow) (generated : PyStr)
    (hparse : parse_authorization_header ((getHeader req (pstr "authorization")).getD []) =
      .ok components)
    (hcred : fetch_tenant_by_access_key s components.access_key = some credential)
    (hgen : oracle (build_signing_input req req.body components credential.secret_key) =
      some generated)
    (hmismatch : pySplitLast (pstr "Signature=") generated ≠ components.signature) :
    proxy_request oracle backends s logical_name object_path req =
      (.httpError (.httpException 401 "Signature mismatch"), []) := by
  have hver : verify_signature oracle req req.body components credential.secret_key =
      .error (.httpException 401 "Signature mismatch") := by
    unfold verify_signature
    rw [hgen]
    dsimp only
    rw [if_neg (by simpa using hmismatch)]
  unfold proxy_request
  dsimp only
  rw [hparse]
  dsimp only
  rw [hcred]
  dsimp only
  rw [hver]

/-- Concrete tenant row for the C2 witness. -/
def tenantW : TenantRow :=
  { customer_id := pstr "tenant-1", access_key := pstr "AKIA123",
    secret_key := pstr "secret123", created_at := 0 }

/-- Concrete store holding `tenantW`. -/
def storeT : Store := { emptyStore with tenant_credentials := [tenantW] }

/-- The client-supplied Authorization header of the C2 witness request. -/
def authHeaderW : PyStr :=
  pstr "AWS4-HMAC-SHA256 Credential=AKIA123/20250101/us-east-1/s3/aws4_request, SignedHeaders=host, Signature=abc123"

/-- The C2 witness request. -/
def reqW : ProxyRequest :=
  { method := pstr "GET", url := pstr "http://testserver/s3/docs/report.txt",
    headers := [(pstr "Authorization", authHeaderW), (pstr "Host", pstr "testserver")],
    query_backend_id := none, body := [] }

/-- Parsed components of `authHeaderW`. -/
def componentsW : SigV4Components :=
  { access_key := pstr "AKIA123", region := pstr "us-east-1",
    signed_headers := pstr "host", signature := pstr "abc123" }

/-- The Authorization header botocore regenerates in the C2 witness — its
signature differs from the client's. -/
def genW : PyStr :=
  pstr "AWS4-HMAC-SHA256 Credential=AKIA123/20250101/us-east-1/s3/aws4_request, SignedHeaders=host, Signature=deadbeef"

/-- Oracle returning `genW` for every signing input. -/
def oracleW : SigV4Oracle := fun _ => some genW

/-- Backends for the C2 witness (never reached). -/
def backendsW : Backends :=
  { configured := fun _ => true,
    get_object := fun _ _ _ => .error (pstr "unreached"),
    put_object := fun _ _ _ _ _ => .ok (),
    delete_object := fun _ _ _ => .ok (),
    head_object := fun _ _ _ => .ok none }

/-- Witness for C2: the concrete mismatching request yields 401 and an empty
backend-call trace. -/
theorem C2_mismatch_never_reaches_backend_witness :
    proxy_request oracleW backendsW storeT (pstr "docs") (pstr "report.txt") reqW =
      (.httpError (.httpException 401 "Signature mismatch"), []) :=
  C2_mismatch_never_reaches_backend oracleW backendsW storeT (pstr "docs") (pstr "report.txt")
    reqW componentsW tenantW genW (by rfl) (by rfl) (by rfl) (by decide)
